import Mathlib

/-!
# Verification of the envelope authentication and error-signaling core

Shallow embedding, in Lean 4, of the message-envelope trust protocol of the
`many-framework` repository:

* `src/omni/src/message.rs` — envelope construction
  (`encode_cose_sign1_from_payload`), envelope verification
  (`CoseSign1RequestMessage::verify`) and request decoding
  (`decode_request_from_cose_sign1`);
* `src/omni/src/message/error.rs` — the `OmniError` taxonomy, its template
  rendering (`Display`) and its binary (`Encode`/`Decode`) form;
* `src/src/many-ledger/src/storage/merk.rs` — the `incr` helper and the
  staged-commit storage backend `MerkStorageBackend`.

Machine bytes are modelled as `Nat` (values of interest never overflow a
byte, and the one increment that occurs, in `incr`, is guarded by
`v[x] != 0xFF` so it cannot wrap).  External libraries are modelled at the
value level: the CBOR wire form of an error is a list of CBOR items rather
than raw bytes, a COSE key set is a list of keys, and the Ed25519 primitive
of the `ring` crate is an abstract signature scheme parameter.

The `Identity` type, the request-message codec and the textual rendering of
identities live outside the excerpted sources (only their callers are
visible), so they are modelled from the specification; each such definition
is marked `Modelled from the spec:` in its doc comment.
-/

namespace Omni

/-- Modelled from the spec: the `Identity` value type (`omni::Identity`,
whose implementation is not part of the excerpt).  A tagged variant over
anonymous, a raw public key, and a hash-derived address. -/
inductive Identity where
  | anonymous : Identity
  | publicKey (bytes : List Nat) : Identity
  | addressable (addr : List Nat) : Identity
deriving DecidableEq, Repr

namespace Identity

/-- Modelled from the spec: the fixed tagged byte encoding of an identity
(variant tag followed by the payload bytes), used as the envelope `kid`. -/
def to_vec : Identity → List Nat
  | .anonymous => [0]
  | .publicKey bytes => 1 :: bytes
  | .addressable addr => 2 :: addr

/-- Modelled from the spec: decoding the tagged byte form back to an
identity; malformed bytes fail. -/
def from_bytes : List Nat → Except String Identity
  | [0] => .ok .anonymous
  | 1 :: bytes => .ok (.publicKey bytes)
  | 2 :: addr => .ok (.addressable addr)
  | _ => .error "Malformed identity."

/-- Modelled from the spec: `Identity::from_public_key` wraps raw public-key
bytes in the `PublicKey` variant. -/
def from_public_key (bytes : List Nat) : Identity := .publicKey bytes

/-- Modelled from the spec: `Identity::default()` is the anonymous
identity (`message.from.unwrap_or_default()` treats a missing `from` as
anonymous). -/
def defaultId : Identity := .anonymous

def is_anonymous : Identity → Bool
  | .anonymous => true
  | _ => false

def is_public_key : Identity → Bool
  | .publicKey _ => true
  | _ => false

def is_addressable : Identity → Bool
  | .addressable _ => true
  | _ => false

/-- Modelled from the spec: a textual rendering of an identity, used only
as an opaque diagnostic string in error fields. -/
def toText (id : Identity) : String :=
  toString id.to_vec

theorem from_bytes_to_vec (id : Identity) : from_bytes id.to_vec = .ok id := by
  cases id <;> rfl

end Identity

/-- An Ed25519 COSE key as built by `Ed25519CoseKeyBuilder`: an optional
public-key point `x` and an optional key id `kid`.  (The COSE byte
serialization of the key set is handled by the external `minicose` crate
and is modelled at the value level.) -/
structure CoseKey where
  x : Option (List Nat)
  kid : Option (List Nat)
deriving DecidableEq, Repr

namespace Identity

/-- Modelled from the spec: `Identity::public_key(cose_key)` derives the
`PublicKey` identity carrying the key's raw bytes. -/
def publicKeyOf (k : CoseKey) : Identity := .publicKey (k.x.getD [])

/-- Modelled from the spec: `Identity::addressable(cose_key)` derives the
`Addressable` identity by hashing the key's raw bytes with the system-wide
one-way hash (passed as the `hash` parameter). -/
def addressableOf (hash : List Nat → List Nat) (k : CoseKey) : Identity :=
  .addressable (hash (k.x.getD []))

/-- Modelled from the spec: `Identity::matches_key`.  Anonymous matches only
an absent key; `PublicKey` requires the candidate's raw bytes to equal the
stored bytes; `Addressable` requires the candidate's hash to equal the
stored address. -/
def matches_key (hash : List Nat → List Nat) :
    Identity → Option CoseKey → Bool
  | .anonymous, none => true
  | .anonymous, some _ => false
  | .publicKey bytes, some k => k.x.getD [] = bytes
  | .publicKey _, none => false
  | .addressable addr, some k => hash (k.x.getD []) = addr
  | .addressable _, none => false

end Identity

/-- The signature algorithm identifier in the protected headers
(`Algorithms::EdDSA(AlgorithmicCurve::Ed25519)` is the only one used). -/
inductive CoseAlgorithm where
  | eddsaEd25519 : CoseAlgorithm
deriving DecidableEq, Repr

/-- The protected headers of a COSE Sign1 envelope, as built in
`encode_cose_sign1_from_payload` and read in `verify`: algorithm, key id,
content type, and the custom `keyset` header (modelled at the value level
as the decoded list of keys rather than its CBOR bytes). -/
structure ProtectedHeaders where
  alg : Option CoseAlgorithm
  kid : Option (List Nat)
  content_type : Option String
  keyset : Option (List CoseKey)
deriving DecidableEq, Repr

/-- A COSE Sign1 envelope: protected headers, optional payload, optional
detached signature. -/
structure CoseSign1 where
  prot : ProtectedHeaders
  payload : Option (List Nat)
  signature : Option (List Nat)
deriving DecidableEq, Repr

/-- The content a COSE Sign1 signature covers: the protected headers
together with the payload (the external `minicose` crate serializes this
pair to the to-be-signed byte string; we keep it as a pair). -/
def SignContent : Type := ProtectedHeaders × Option (List Nat)

/-- An Ed25519-style signature scheme, abstracting the `ring` crate:
a public-key derivation, a signing function over private key bytes, and a
verification predicate over public-key bytes. -/
structure SigScheme where
  pub : List Nat → List Nat
  sign : List Nat → SignContent → List Nat
  verify : List Nat → SignContent → List Nat → Bool

/-- Correctness of the signature primitive (what `ring`'s Ed25519
guarantees): a signature produced with a private key verifies under the
derived public key. -/
def SigScheme.Correct (S : SigScheme) : Prop :=
  ∀ k m, S.verify (S.pub k) m (S.sign k m) = true

/-- `CoseSign1::sign_with`: store the signature produced by the signing
closure over the to-be-signed content. -/
def CoseSign1.sign_with (env : CoseSign1) (f : SignContent → List Nat) :
    CoseSign1 :=
  { env with signature := some (f (env.prot, env.payload)) }

/-- `CoseSign1::verify_with`: run the verification closure on the
to-be-signed content and the attached signature (an absent signature is the
empty byte string, which no key verifies). -/
def CoseSign1.verify_with (env : CoseSign1)
    (f : SignContent → List Nat → Bool) : Bool :=
  f (env.prot, env.payload) (env.signature.getD [])

/-- `CoseKeySet::get_kid`: find the key in the set whose `kid` equals the
given bytes. -/
def getKid (kidBytes : List Nat) : List CoseKey → Option CoseKey
  | [] => none
  | k :: rest => if k.kid = some kidBytes then some k else getKid kidBytes rest

/-- `encode_cose_sign1_from_payload` (src/omni/src/message.rs:79-127):
derive the COSE key from the keypair when present, check it against the
claimed identity, build the protected headers (algorithm, `kid`,
content type, and — when a key was derived — a one-entry `keyset`), attach
the payload, and sign when a keypair is present. -/
def encode_cose_sign1_from_payload (S : SigScheme)
    (hash : List Nat → List Nat) (payload : List Nat) (id : Identity)
    (keypair : Option (List Nat)) : Except String CoseSign1 :=
  let maybe_cose_key : Option CoseKey :=
    keypair.map fun kp => { x := some (S.pub kp), kid := some id.to_vec }
  if ¬ Identity.matches_key hash id maybe_cose_key then
    .error "Identity did not match keypair."
  else
    let prot : ProtectedHeaders :=
      { alg := some .eddsaEd25519
        kid := some id.to_vec
        content_type := some "application/cbor"
        keyset := maybe_cose_key.map fun k => [k] }
    let cose : CoseSign1 := { prot := prot, payload := some payload, signature := none }
    match keypair with
    | some kp => .ok (cose.sign_with fun content => S.sign kp content)
    | none => .ok cose

/-- `CoseSign1RequestMessage::get_keyset`
(src/omni/src/message.rs:152-160): read the custom `keyset` protected
header (modelled as the already-decoded key list). -/
def CoseSign1.get_keyset (env : CoseSign1) : Option (List CoseKey) :=
  env.prot.keyset

/-- `CoseSign1RequestMessage::get_public_key_for_identity`
(src/omni/src/message.rs:162-198): never for anonymous identities; find the
keyset entry whose `kid` equals the identity bytes, extract its raw `x`
bytes, and accept it only when rebuilding an identity from the key
reproduces the claimed one (by raw bytes for `PublicKey`, by hash for
`Addressable`). -/
def CoseSign1.get_public_key_for_identity (hash : List Nat → List Nat)
    (env : CoseSign1) (id : Identity) : Option (List Nat) :=
  if id.is_anonymous then none
  else match env.get_keyset with
    | none => none
    | some ks =>
      match getKid id.to_vec ks with
      | none => none
      | some cose_key =>
        match cose_key.x with
        | none => none
        | some key_bytes =>
          if id.is_public_key then
            if Identity.publicKeyOf cose_key = id then some key_bytes else none
          else if id.is_addressable then
            if Identity.addressableOf hash cose_key = id then some key_bytes
            else none
          else none

/-- `CoseSign1RequestMessage::verify` (src/omni/src/message.rs:200-227):
read the `kid`, decode it to an identity, accept anonymous identities
without a signature check, otherwise locate the public key in the envelope
and check the signature. -/
def CoseSign1.verify (hash : List Nat → List Nat) (S : SigScheme)
    (env : CoseSign1) : Except String Identity :=
  match env.prot.kid with
  | some kid =>
    match Identity.from_bytes kid with
    | .ok id =>
      if id.is_anonymous then .ok id
      else
        match env.get_public_key_for_identity hash id with
        | none => .error "Could not find a public key in the envelope"
        | some key =>
          if env.verify_with (fun content sig => S.verify key content sig) then
            .ok id
          else .error "Envelope does not verify."
    | .error _ => .error "Invalid (not an OMNI identity) key ID"
  | none => .error "Missing key ID"

/-! ## The request-message codec

The `RequestMessage` structure and its binary codec live in
`src/omni/src/message/request.rs`, which is not part of the excerpt; the
shape (`from`/`to`/`method`) and a length-prefixed compact binary form are
modelled from the specification. -/

/-- Modelled from the spec: a request message carrying an optional sender,
a recipient and a method name (the fields this core inspects). -/
structure RequestMessage where
  from_ : Option Identity
  to_ : Identity
  method : String
deriving DecidableEq, Repr

/-- Read a length-prefixed block off the front of the input. -/
def readBlock : List Nat → Except String (List Nat × List Nat)
  | [] => .error "end of input"
  | n :: rest =>
    if n ≤ rest.length then .ok (rest.take n, rest.drop n)
    else .error "end of input"

/-- Modelled from the spec: parse a length-prefixed identity. -/
def parseIdentity (input : List Nat) :
    Except String (Identity × List Nat) :=
  match readBlock input with
  | .error e => .error e
  | .ok (block, rest) =>
    match Identity.from_bytes block with
    | .ok id => .ok (id, rest)
    | .error e => .error e

/-- Modelled from the spec: parse an explicit-optionality identity
(tag 0 = absent, tag 1 = present). -/
def parseOptionIdentity : List Nat → Except String (Option Identity × List Nat)
  | 0 :: rest => .ok (none, rest)
  | 1 :: rest =>
    match parseIdentity rest with
    | .ok (id, r) => .ok (some id, r)
    | .error e => .error e
  | _ => .error "bad option tag"

/-- Modelled from the spec: parse a length-prefixed string. -/
def parseText (input : List Nat) : Except String (String × List Nat) :=
  match readBlock input with
  | .error e => .error e
  | .ok (block, rest) => .ok (String.mk (block.map Char.ofNat), rest)

namespace RequestMessage

/-- Modelled from the spec: the compact binary encoding of a request
message — explicit-optionality `from`, then `to`, then `method`, each
length-prefixed. -/
def to_bytes (m : RequestMessage) : List Nat :=
  (match m.from_ with
   | none => [0]
   | some id => 1 :: id.to_vec.length :: id.to_vec) ++
  (m.to_.to_vec.length :: m.to_.to_vec) ++
  (m.method.data.length :: m.method.data.map Char.toNat)

/-- Modelled from the spec: decoding of the compact binary form; truncated
or ill-typed buffers fail. -/
def from_bytes (input : List Nat) : Except String RequestMessage :=
  match parseOptionIdentity input with
  | .error e => .error e
  | .ok (from_, r1) =>
    match parseIdentity r1 with
    | .error e => .error e
    | .ok (toId, r2) =>
      match parseText r2 with
      | .error e => .error e
      | .ok (method, r3) =>
        if r3 = [] then .ok { from_ := from_, to_ := toId, method := method }
        else .error "trailing bytes"

end RequestMessage

/-- `encode_cose_sign1_from_request` (src/omni/src/message.rs:137-143):
encode the request message and wrap it. -/
def encode_cose_sign1_from_request (S : SigScheme)
    (hash : List Nat → List Nat) (request : RequestMessage) (id : Identity)
    (keypair : Option (List Nat)) : Except String CoseSign1 :=
  encode_cose_sign1_from_payload S hash request.to_bytes id keypair

/-! ## The error taxonomy (src/omni/src/message/error.rs) -/

/-- `OmniErrorCode`: the registered codes generated by the `omni_error!`
macro, plus `ApplicationSpecific`. -/
inductive OmniErrorCode where
  | unknown
  | messageTooLong
  | invalidMethodName
  | invalidFromIdentity
  | couldNotVerifySignature
  | unknownDestination
  | emptyEnvelope
  | internalServerError
  | applicationSpecific (x : Nat)
deriving DecidableEq, Repr

/-- `RESERVED_OMNI_ERROR_CODE`. -/
def RESERVED_OMNI_ERROR_CODE : Nat := 10000

namespace OmniErrorCode

/-- The `Into<u32>` impl generated by `omni_error!`. -/
def toU32 : OmniErrorCode → Nat
  | .unknown => 0
  | .messageTooLong => 1
  | .invalidMethodName => 1000
  | .invalidFromIdentity => 1001
  | .couldNotVerifySignature => 1002
  | .unknownDestination => 1003
  | .emptyEnvelope => 1004
  | .internalServerError => 2000
  | .applicationSpecific x => x

/-- The `From<u32>` impl generated by `omni_error!`: registered codes map
to their variants, codes at or above the reserved bound map to
`ApplicationSpecific`, everything else falls back to `Unknown`. -/
def fromU32 (v : Nat) : OmniErrorCode :=
  if v = 0 then .unknown
  else if v = 1 then .messageTooLong
  else if v = 1000 then .invalidMethodName
  else if v = 1001 then .invalidFromIdentity
  else if v = 1002 then .couldNotVerifySignature
  else if v = 1003 then .unknownDestination
  else if v = 1004 then .emptyEnvelope
  else if v = 2000 then .internalServerError
  else if v ≥ RESERVED_OMNI_ERROR_CODE then .applicationSpecific v
  else .unknown

/-- `OmniErrorCode::is_application_specific`. -/
def is_application_specific : OmniErrorCode → Bool
  | .applicationSpecific x => x ≥ RESERVED_OMNI_ERROR_CODE
  | _ => false

/-- `OmniErrorCode::message`: the static template registered for the code
(braces inside the templates are written with `\x7b`/`\x7d` escapes). -/
def message : OmniErrorCode → Option String
  | .unknown => some "Unknown error."
  | .messageTooLong =>
    some "Message is too long. Max allowed size is \x7bmax\x7d bytes."
  | .invalidMethodName =>
    some "Invalid method name: \"\x7bmethod\x7d\"."
  | .invalidFromIdentity =>
    some "The identity of the from field is invalid or unexpected."
  | .couldNotVerifySignature =>
    some "Signature does not match the public key."
  | .unknownDestination =>
    some "Unknown destination for message.\nThis is \"\x7bthis\x7d\", message was for \"\x7bto\x7d\"."
  | .emptyEnvelope =>
    some "An envelope must contain a payload."
  | .internalServerError =>
    some "An internal server error happened."
  | .applicationSpecific _ => none

end OmniErrorCode

/-- The ordered string-to-string `fields` mapping of an error, modelling
`BTreeMap<String, String>` as an association list kept sorted by key. -/
def Fields : Type := List (String × String)

instance : DecidableEq Fields := by
  unfold Fields
  infer_instance

/-- Lexicographic comparison of character lists, the order `BTreeMap`
uses on its `String` keys. -/
def charListLt : List Char → List Char → Bool
  | [], [] => false
  | [], _ :: _ => true
  | _ :: _, [] => false
  | a :: as, b :: bs =>
    if a < b then true else if b < a then false else charListLt as bs

/-- The `BTreeMap` string key order, over the strings' characters. -/
def strLt (a b : String) : Bool := charListLt a.data b.data

/-- Insert into the sorted association list, replacing the value of an
existing key (`BTreeMap::insert`). -/
def fieldsInsert (k v : String) : List (String × String) → List (String × String)
  | [] => [(k, v)]
  | (k', v') :: rest =>
    if strLt k k' then (k, v) :: (k', v') :: rest
    else if k = k' then (k, v) :: rest
    else (k', v') :: fieldsInsert k v rest

/-- `BTreeMap::from_iter`. -/
def fieldsFromList (l : List (String × String)) : List (String × String) :=
  l.foldl (fun acc kv => fieldsInsert kv.1 kv.2 acc) []

/-- `BTreeMap::get`, as association-list lookup. -/
def fieldsGet (fields : List (String × String)) (k : String) : Option String :=
  match fields.find? (fun kv => kv.1 = k) with
  | some kv => some kv.2
  | none => none

/-- `OmniError`: a code, an optional message template, and the fields
mapping. -/
structure OmniError where
  code : OmniErrorCode
  message : Option String
  fields : List (String × String)
deriving DecidableEq, Repr

namespace OmniError

/-- `OmniError::unknown()`. -/
def unknown : OmniError := ⟨.unknown, none, []⟩

/-- `OmniError::message_too_long(max)`. -/
def message_too_long (max : String) : OmniError :=
  ⟨.messageTooLong, none, fieldsFromList [("max", max)]⟩

/-- `OmniError::invalid_method_name(method)`. -/
def invalid_method_name (method : String) : OmniError :=
  ⟨.invalidMethodName, none, fieldsFromList [("method", method)]⟩

/-- `OmniError::invalid_from_identity()`. -/
def invalid_from_identity : OmniError := ⟨.invalidFromIdentity, none, []⟩

/-- `OmniError::could_not_verify_signature()`. -/
def could_not_verify_signature : OmniError :=
  ⟨.couldNotVerifySignature, none, []⟩

/-- `OmniError::unknown_destination(to, this)`: the first argument lands in
the `"to"` field, the second in the `"this"` field. -/
def unknown_destination (to_ this_ : String) : OmniError :=
  ⟨.unknownDestination, none, fieldsFromList [("to", to_), ("this", this_)]⟩

/-- `OmniError::empty_envelope()`. -/
def empty_envelope : OmniError := ⟨.emptyEnvelope, none, []⟩

/-- `OmniError::internal_server_error()`. -/
def internal_server_error : OmniError := ⟨.internalServerError, none, []⟩

end OmniError

/-- `decode_request_from_cose_sign1` (src/omni/src/message.rs:20-49):
verify the envelope (any verification failure becomes
`CouldNotVerifySignature`), require a payload (`EmptyEnvelope`), decode it
(`InternalServerError`), cross-check `from` (`InvalidFromIdentity`) and,
when an expected recipient is supplied, `to` (`UnknownDestination`). -/
def decode_request_from_cose_sign1 (hash : List Nat → List Nat)
    (S : SigScheme) (sign1 : CoseSign1) (to_ : Option Identity) :
    Except OmniError RequestMessage :=
  match CoseSign1.verify hash S sign1 with
  | .error _ => .error OmniError.could_not_verify_signature
  | .ok from_id =>
    match sign1.payload with
    | none => .error OmniError.empty_envelope
    | some payload =>
      match RequestMessage.from_bytes payload with
      | .error _ => .error OmniError.internal_server_error
      | .ok message =>
        if from_id ≠ message.from_.getD Identity.defaultId then
          .error OmniError.invalid_from_identity
        else
          match to_ with
          | some to_id =>
            if to_id ≠ message.to_ then
              .error (OmniError.unknown_destination message.to_.toText to_id.toText)
            else .ok message
          | none => .ok message

/-! ## Template rendering (`impl Display for OmniError`)

The source scans the template with the regex `\{\{|\}\}|\{[^\}]*\}` under
the regex crate's leftmost-first alternation: at each position `{{` is
tried first, then `}}`, then `{` followed by the characters up to the first
`}`; unmatched characters are copied verbatim.  The scanner below is the
direct single-pass equivalent. -/

/-- The `\x7b` character. -/
def lbrace : Char := Char.ofNat 123

/-- The `\x7d` character. -/
def rbrace : Char := Char.ofNat 125

/-- Split at the first `\x7d`: the characters before it and the rest after
it; fails when no `\x7d` occurs (the `\{[^\}]*\}` alternative cannot
match). -/
def takeToRBrace : List Char → Option (List Char × List Char)
  | [] => none
  | c :: rest =>
    if c = rbrace then some ([], rest)
    else (takeToRBrace rest).map fun p => (c :: p.1, p.2)

theorem takeToRBrace_length {l : List Char} :
    ∀ {a b : List Char}, takeToRBrace l = some (a, b) → b.length < l.length := by
  induction l with
  | nil => intro a b h; simp [takeToRBrace] at h
  | cons c rest ih =>
    intro a b h
    by_cases hc : c = rbrace
    · simp only [takeToRBrace, if_pos hc, Option.some.injEq, Prod.mk.injEq] at h
      obtain ⟨h1, h2⟩ := h
      subst h2
      simp
    · simp only [takeToRBrace, if_neg hc] at h
      rcases hr : takeToRBrace rest with _ | ⟨p1, p2⟩
      · rw [hr] at h; simp at h
      · rw [hr] at h
        simp only [Option.map_some', Option.some.injEq, Prod.mk.injEq] at h
        obtain ⟨h1, h2⟩ := h
        subst h2
        exact Nat.lt_succ_of_lt (ih hr)

/-- The single-pass scan of the `Display` impl
(src/omni/src/message/error.rs:137-165), over the template's characters:
`\x7b\x7b` and `\x7d\x7d` become single braces, `\x7b…\x7d` becomes the
field value (empty when the field is absent), everything else is copied.
The `fuel` argument only makes the recursion structural; every step
consumes at least one character, so the list's length, which `render`
passes, is always enough fuel. -/
def renderChars (fields : List (String × String)) : Nat → List Char → List Char
  | 0, l => l
  | _ + 1, [] => []
  | _ + 1, [c1] => [c1]
  | fuel + 1, c1 :: c2 :: rest2 =>
    if c1 = lbrace then
      if c2 = lbrace then lbrace :: renderChars fields fuel rest2
      else
        match takeToRBrace (c2 :: rest2) with
        | some (name, rest') =>
          ((fieldsGet fields (String.mk name)).getD "").data
            ++ renderChars fields fuel rest'
        | none => c1 :: renderChars fields fuel (c2 :: rest2)
    else if c1 = rbrace then
      if c2 = rbrace then rbrace :: renderChars fields fuel rest2
      else c1 :: renderChars fields fuel (c2 :: rest2)
    else c1 :: renderChars fields fuel (c2 :: rest2)

/-- Template rendering over strings. -/
def render (template : String) (fields : List (String × String)) : String :=
  String.mk (renderChars fields template.data.length template.data)

/-- `impl Display for OmniError`: pick the explicit message, else the
registered template of the code, else the fallback text; then render. -/
def OmniError.display (e : OmniError) : String :=
  render (e.message.getD (e.code.message.getD "Invalid error code.")) e.fields

/-! ## The binary form of an error (`Encode`/`Decode` impls)

The wire form is modelled at the CBOR item level (the item stream the
external `minicbor` crate writes and reads). -/

/-- One CBOR data item as written by the `Encode` impl: an array header,
an unsigned integer, a text string, or a string-to-string map. -/
inductive CborItem where
  | arr (n : Nat)
  | uint (n : Nat)
  | text (s : String)
  | map (m : List (String × String))
deriving DecidableEq, Repr

/-- `impl Encode for OmniError` (src/omni/src/message/error.rs:169-183):
a 1–3 element array — the code, the message whenever one is present, and
the fields map whenever it is non-empty. -/
def OmniError.encode (e : OmniError) : List CborItem :=
  match e.message, e.fields.isEmpty with
  | some msg, true => [.arr 2, .uint e.code.toU32, .text msg]
  | some msg, false => [.arr 3, .uint e.code.toU32, .text msg, .map e.fields]
  | none, true => [.arr 1, .uint e.code.toU32]
  | none, false => [.arr 2, .uint e.code.toU32, .map e.fields]

/-- `impl Decode for OmniError` (src/omni/src/message/error.rs:185-210):
readParse the array header and the code; for application-specific codes a
message string is mandatory; in both branches a fields map is read exactly
when the next data item is a map.  Returns the decoded error and the
unconsumed items. -/
def OmniError.decode : List CborItem → Except String (OmniError × List CborItem)
  | .arr _ :: .uint c :: rest =>
    let code := OmniErrorCode.fromU32 c
    if code.is_application_specific then
      match rest with
      | .text s :: .map m :: rest3 => .ok (⟨code, some s, m⟩, rest3)
      | .text s :: rest2 => .ok (⟨code, some s, []⟩, rest2)
      | _ => .error "expected a text item"
    else
      match rest with
      | .map m :: rest2 => .ok (⟨code, none, m⟩, rest2)
      | _ => .ok (⟨code, none, []⟩, rest)
  | _ => .error "expected an array header and a code"

end Omni

namespace ManyLedger

/-- `incr` (src/src/many-ledger/src/storage/merk.rs:11-25), auxiliary scan:
walk the byte vector from its end; at the first byte that is not `0xFF`
(seen from the right) add one and keep the rest unchanged; `none` when
every byte is `0xFF`. -/
def incrAux : List Nat → Option (List Nat)
  | [] => none
  | b :: rest =>
    match incrAux rest with
    | some w => some (b :: w)
    | none => if b ≠ 0xFF then some ((b + 1) :: rest) else none

/-- `incr`: the in-place increment when some byte is below `0xFF`,
otherwise the one-longer vector `0x1000…00`. -/
def incr (v : List Nat) : List Nat :=
  match incrAux v with
  | some w => w
  | none => 1 :: List.replicate v.length 0

/-- A `merk` batch operation (only `Op::Put` is used). -/
inductive Op where
  | put (value : List Nat)
deriving DecidableEq, Repr

/-- The staged writes of `MerkStorageBackend`: the `stage` field's
`BTreeMap<Vec<u8>, Vec<u8>>`, modelled as an association list kept sorted
by strictly increasing (lexicographic) key order. -/
def Stage : Type := List (List Nat × List Nat)

/-- `BTreeMap::insert` on the stage: place the binding at its ordered
position, replacing an existing binding of the same key. -/
def stageInsert (k v : List Nat) : List (List Nat × List Nat) → List (List Nat × List Nat)
  | [] => [(k, v)]
  | (k', v') :: rest =>
    if List.Lex (· < ·) k k' then (k, v) :: (k', v') :: rest
    else if k = k' then (k, v) :: rest
    else (k', v') :: stageInsert k v rest

/-- The batch `commit` builds right before `apply_unchecked`
(src/src/many-ledger/src/storage/merk.rs:66-73): every staged binding, in
the stage's iteration order, as a `Put` entry. -/
def commitBatch (stage : List (List Nat × List Nat)) : List (List Nat × Op) :=
  stage.map fun kv => (kv.1, Op.put kv.2)

/-- The states of `MerkStorageBackend`'s stage reachable through its API:
`create`/`load` start empty, `put` inserts into the B-tree map, `commit`
replaces the stage with a fresh empty map (`get`, `get_staged`, `hash` and
`iter` leave it untouched). -/
inductive Reachable : List (List Nat × List Nat) → Prop where
  | create : Reachable []
  | put (k v : List Nat) {s : List (List Nat × List Nat)} :
      Reachable s → Reachable (stageInsert k v s)
  | commit {s : List (List Nat × List Nat)} : Reachable s → Reachable []

/-- The stage invariant: keys strictly increase along the list. -/
def StageSorted (s : List (List Nat × List Nat)) : Prop :=
  s.Pairwise fun a b => List.Lex (· < ·) a.1 b.1

theorem mem_stageInsert (k v : List Nat) :
    ∀ (s : List (List Nat × List Nat)) (x : List Nat × List Nat),
      x ∈ stageInsert k v s → x = (k, v) ∨ x ∈ s := by
  intro s
  induction s with
  | nil =>
    intro x h
    simp [stageInsert] at h
    exact Or.inl h
  | cons kv rest ih =>
    intro x h
    obtain ⟨k', v'⟩ := kv
    simp only [stageInsert] at h
    split_ifs at h with h1 h2
    · rcases List.mem_cons.mp h with h | h
      · exact Or.inl h
      · exact Or.inr h
    · rcases List.mem_cons.mp h with h | h
      · exact Or.inl h
      · exact Or.inr (List.mem_cons_of_mem _ h)
    · rcases List.mem_cons.mp h with h | h
      · exact Or.inr (by rw [h]; exact List.mem_cons_self _ _)
      · rcases ih x h with h3 | h3
        · exact Or.inl h3
        · exact Or.inr (List.mem_cons_of_mem _ h3)

theorem stageInsert_sorted (k v : List Nat) :
    ∀ (s : List (List Nat × List Nat)),
      StageSorted s → StageSorted (stageInsert k v s) := by
  intro s
  induction s with
  | nil =>
    intro _
    simp [stageInsert, StageSorted]
  | cons kv rest ih =>
    obtain ⟨k', v'⟩ := kv
    intro hs
    rw [StageSorted, List.pairwise_cons] at hs
    obtain ⟨hhead, htail⟩ := hs
    simp only [stageInsert]
    split_ifs with h1 h2
    · rw [StageSorted, List.pairwise_cons]
      constructor
      · intro x hx
        rcases List.mem_cons.mp hx with h | h
        · rw [h]
          exact h1
        · exact trans_of (List.Lex (· < ·)) h1 (hhead x h)
      · rw [List.pairwise_cons]
        exact ⟨hhead, htail⟩
    · subst h2
      rw [StageSorted, List.pairwise_cons]
      exact ⟨hhead, htail⟩
    · have h3 : List.Lex (· < ·) k' k := by
        rcases trichotomous_of (List.Lex (· < ·) : List Nat → List Nat → Prop) k k' with h | h | h
        · exact absurd h h1
        · exact absurd h h2
        · exact h
      rw [StageSorted, List.pairwise_cons]
      constructor
      · intro x hx
        rcases mem_stageInsert k v rest x hx with h | h
        · rw [h]
          exact h3
        · exact hhead x h
      · exact ih htail

/-- Every reachable stage satisfies the sortedness invariant. -/
theorem reachable_sorted {s : List (List Nat × List Nat)}
    (h : Reachable s) : StageSorted s := by
  induction h with
  | create => exact List.Pairwise.nil
  | put k v _ ih => exact stageInsert_sorted k v _ ih
  | commit _ _ => exact List.Pairwise.nil

theorem incrAux_none : ∀ {v : List Nat}, incrAux v = none ↔ ∀ b ∈ v, b = 0xFF := by
  intro v
  induction v with
  | nil => simp [incrAux]
  | cons b rest ih =>
    constructor
    · intro h x hx
      cases hr : incrAux rest with
      | some w =>
        rw [incrAux, hr] at h
        simp at h
      | none =>
        rw [incrAux, hr] at h
        by_cases hb : b = 0xFF
        · rcases List.mem_cons.mp hx with h2 | h2
          · rw [h2]
            exact hb
          · exact ih.mp hr x h2
        · simp [hb] at h
    · intro h
      have hb : b = 0xFF := h b (List.mem_cons_self _ _)
      have hr : incrAux rest = none :=
        ih.mpr fun x hx => h x (List.mem_cons_of_mem _ hx)
      rw [incrAux, hr]
      simp [hb]

theorem incrAux_some_spec : ∀ {v w : List Nat}, incrAux v = some w →
    w.length = v.length ∧ List.Lex (· < ·) v w := by
  intro v
  induction v with
  | nil =>
    intro w h
    simp [incrAux] at h
  | cons b rest ih =>
    intro w h
    cases hr : incrAux rest with
    | some w2 =>
      rw [incrAux, hr] at h
      simp only [Option.some.injEq] at h
      obtain ⟨hl, hlex⟩ := ih hr
      rw [← h]
      exact ⟨by simp [hl], List.Lex.cons hlex⟩
    | none =>
      rw [incrAux, hr] at h
      by_cases hb : b = 0xFF
      · simp [hb] at h
      · simp only [ne_eq, hb, not_false_iff, if_pos, Option.some.injEq] at h
        rw [← h]
        exact ⟨by simp, List.Lex.rel (Nat.lt_succ_self b)⟩

end ManyLedger

/-! ## Concrete artifacts used by the claim witnesses -/

deriving instance DecidableEq for Except

namespace Omni

/-- A concrete stand-in hash for witness instantiation (the theorems are
universally quantified over the hash function). -/
def toyHash : List Nat → List Nat := fun l => 7 :: l

/-- A concrete signature scheme for witness instantiation: correct
(signatures produced with a private key verify under the derived public
key), with no security pretension. -/
def toyScheme : SigScheme :=
  { pub := fun k => 0 :: k
    sign := fun k _ => 0 :: k
    verify := fun pk _ s => decide (s = pk) }

theorem toyScheme_correct : toyScheme.Correct := by
  intro k m
  simp [toyScheme, SigScheme.Correct]

end Omni

namespace ManyLedger

/-- C10: `incr` on a vector with some byte below `0xFF` keeps the length
and strictly increases the vector lexicographically; on an all-`0xFF`
vector of length `n` it returns the `n+1`-byte vector `0x1000…00`. -/
theorem c10_incr_spec (v : List Nat) :
    ((∃ b ∈ v, b ≠ 0xFF) →
      (incr v).length = v.length ∧ List.Lex (· < ·) v (incr v)) ∧
    ((∀ b ∈ v, b = 0xFF) → incr v = 1 :: List.replicate v.length 0) := by
  constructor
  · intro hex
    cases h : incrAux v with
    | none =>
      obtain ⟨b, hb, hne⟩ := hex
      exact absurd (incrAux_none.mp h b hb) hne
    | some w =>
      have hspec := incrAux_some_spec h
      simp only [incr, h]
      exact hspec
  · intro hall
    have h : incrAux v = none := incrAux_none.mpr hall
    simp [incr, h]

/-- C10 witness: the two cases at concrete inputs. -/
theorem c10_incr_spec_witness :
    ((incr [5, 255]).length = [5, 255].length ∧
      List.Lex (· < ·) [5, 255] (incr [5, 255])) ∧
    incr [255, 255] = 1 :: List.replicate 2 0 :=
  ⟨(c10_incr_spec [5, 255]).1 ⟨5, by decide, by decide⟩,
   (c10_incr_spec [255, 255]).2 (by decide)⟩

/-- C8: for every reachable stage of `MerkStorageBackend`, the batch that
`commit` hands to the unchecked `apply_unchecked` fast path has keys in
strictly increasing lexicographic order, hence without duplicates. -/
theorem c8_commit_batch_sorted {s : List (List Nat × List Nat)}
    (h : Reachable s) :
    (commitBatch s).Pairwise (fun a b => List.Lex (· < ·) a.1 b.1) ∧
    ((commitBatch s).map Prod.fst).Nodup := by
  have hs := reachable_sorted h
  constructor
  · rw [commitBatch, List.pairwise_map]
    exact hs
  · have hmap : (commitBatch s).map Prod.fst = s.map Prod.fst := by
      simp [commitBatch]
    rw [hmap, List.nodup_iff_sublist]
    intro a hsub
    have hpair : (s.map Prod.fst).Pairwise
        (fun a b => List.Lex (· < ·) a b) := by
      rw [List.pairwise_map]
      exact hs
    have := List.Pairwise.sublist hsub hpair
    rw [List.pairwise_cons] at this
    exact irrefl_of (List.Lex (· < ·) : List Nat → List Nat → Prop) a
      (this.1 a (List.mem_cons_self _ _))

/-- C8 witness: a concrete reachable stage. -/
theorem c8_commit_batch_sorted_witness :
    (commitBatch (stageInsert [2] [20] (stageInsert [1] [10] []))).Pairwise
      (fun a b => List.Lex (· < ·) a.1 b.1) ∧
    ((commitBatch (stageInsert [2] [20] (stageInsert [1] [10] []))).map
      Prod.fst).Nodup :=
  c8_commit_batch_sorted
    (Reachable.put [2] [20] (Reachable.put [1] [10] Reachable.create))

end ManyLedger

namespace Omni

/-- C1: for every request message `m` and every correct Ed25519-style key
pair `kp`, building an envelope for `m` under the identity derived from
the public key (which embeds a one-entry keyset in the protected headers)
succeeds, and verifying that envelope succeeds and returns that
identity. -/
theorem c1_sign_then_verify (S : SigScheme) (hash : List Nat → List Nat)
    (hS : S.Correct) (kp : List Nat) (m : RequestMessage) :
    ∃ env : CoseSign1,
      encode_cose_sign1_from_request S hash m
        (Identity.from_public_key (S.pub kp)) (some kp) = .ok env ∧
      env.prot.keyset.map List.length = some 1 ∧
      CoseSign1.verify hash S env = .ok (Identity.from_public_key (S.pub kp)) := by
  refine ⟨⟨⟨some .eddsaEd25519, some (1 :: S.pub kp), some "application/cbor",
      some [⟨some (S.pub kp), some (1 :: S.pub kp)⟩]⟩, some m.to_bytes,
      some (S.sign kp (⟨some .eddsaEd25519, some (1 :: S.pub kp),
        some "application/cbor",
        some [⟨some (S.pub kp), some (1 :: S.pub kp)⟩]⟩, some m.to_bytes))⟩,
    ?_, ?_, ?_⟩
  · simp [encode_cose_sign1_from_request, encode_cose_sign1_from_payload,
      Identity.matches_key,
      Identity.from_public_key, Identity.to_vec, CoseSign1.sign_with]
  · simp
  · simp [CoseSign1.verify, Identity.from_public_key, Identity.to_vec,
      Identity.from_bytes, Identity.is_anonymous,
      CoseSign1.get_public_key_for_identity, CoseSign1.get_keyset, getKid,
      Identity.is_public_key, Identity.publicKeyOf, CoseSign1.verify_with]
    exact hS kp _

/-- C1 witness: the round trip at a concrete key pair and request message
under the concrete correct scheme. -/
theorem c1_witness :
    ∃ env : CoseSign1,
      encode_cose_sign1_from_request toyScheme toyHash
        ⟨none, .anonymous, "m"⟩
        (Identity.from_public_key (toyScheme.pub [9])) (some [9]) = .ok env ∧
      env.prot.keyset.map List.length = some 1 ∧
      CoseSign1.verify toyHash toyScheme env =
        .ok (Identity.from_public_key (toyScheme.pub [9])) :=
  c1_sign_then_verify toyScheme toyHash toyScheme_correct [9]
    ⟨none, .anonymous, "m"⟩

/-- C2: an envelope whose `kid` decodes to the anonymous identity verifies
to the anonymous sender whatever its payload and signature are — no
signature check happens. -/
theorem c2_anonymous_verifies (hash : List Nat → List Nat) (S : SigScheme)
    (env : CoseSign1) (bs : List Nat) (hkid : env.prot.kid = some bs)
    (hdec : Identity.from_bytes bs = .ok .anonymous) :
    CoseSign1.verify hash S env = .ok .anonymous := by
  simp [CoseSign1.verify, hkid, hdec, Identity.is_anonymous]

/-- C2 witness: a concrete anonymous envelope carrying a junk signature
still verifies. -/
theorem c2_witness :
    CoseSign1.verify toyHash toyScheme
      ⟨⟨none, some [0], none, none⟩, some [1, 2], some [3, 4]⟩ =
      .ok .anonymous :=
  c2_anonymous_verifies toyHash toyScheme _ [0] rfl rfl

/-- C3 (amended): the inner verification distinguishes a missing `kid`
("Missing key ID") from an undecodable `kid` ("Invalid (not an OMNI
identity) key ID") as distinct string errors, but request decoding maps
both — like every verification failure — to the single error
`CouldNotVerifySignature`; no distinct `MissingKeyId`/`InvalidKeyId` codes
exist. -/
theorem c3_kid_errors_collapse (hash : List Nat → List Nat) (S : SigScheme)
    (env : CoseSign1) (to_ : Option Identity) :
    (env.prot.kid = none →
      CoseSign1.verify hash S env = .error "Missing key ID" ∧
      decode_request_from_cose_sign1 hash S env to_ =
        .error OmniError.could_not_verify_signature) ∧
    (∀ bs e, env.prot.kid = some bs → Identity.from_bytes bs = .error e →
      CoseSign1.verify hash S env =
        .error "Invalid (not an OMNI identity) key ID" ∧
      decode_request_from_cose_sign1 hash S env to_ =
        .error OmniError.could_not_verify_signature) := by
  constructor
  · intro hk
    have hv : CoseSign1.verify hash S env = .error "Missing key ID" := by
      simp [CoseSign1.verify, hk]
    exact ⟨hv, by simp [decode_request_from_cose_sign1, hv]⟩
  · intro bs e hk hd
    have hv : CoseSign1.verify hash S env =
        .error "Invalid (not an OMNI identity) key ID" := by
      simp [CoseSign1.verify, hk, hd]
    exact ⟨hv, by simp [decode_request_from_cose_sign1, hv]⟩

/-- C3 witness: both branches at concrete envelopes (no `kid`, and a `kid`
that is not an identity encoding). -/
theorem c3_witness :
    (CoseSign1.verify toyHash toyScheme
        ⟨⟨none, none, none, none⟩, none, none⟩ = .error "Missing key ID" ∧
      decode_request_from_cose_sign1 toyHash toyScheme
        ⟨⟨none, none, none, none⟩, none, none⟩ none =
        .error OmniError.could_not_verify_signature) ∧
    (CoseSign1.verify toyHash toyScheme
        ⟨⟨none, some [9], none, none⟩, none, none⟩ =
        .error "Invalid (not an OMNI identity) key ID" ∧
      decode_request_from_cose_sign1 toyHash toyScheme
        ⟨⟨none, some [9], none, none⟩, none, none⟩ none =
        .error OmniError.could_not_verify_signature) :=
  ⟨(c3_kid_errors_collapse toyHash toyScheme
      ⟨⟨none, none, none, none⟩, none, none⟩ none).1 rfl,
   (c3_kid_errors_collapse toyHash toyScheme
      ⟨⟨none, some [9], none, none⟩, none, none⟩ none).2
      [9] "Malformed identity." rfl rfl⟩

/-- C3 counterexample: decoding an envelope without a `kid` fails with
`CouldNotVerifySignature` (code 1002) — not with a distinct `MissingKeyId`
error as the claim states. -/
theorem c3_counterexample :
    decode_request_from_cose_sign1 toyHash toyScheme
      ⟨⟨none, none, none, none⟩, none, none⟩ none =
      .error OmniError.could_not_verify_signature ∧
    OmniError.could_not_verify_signature.code.toU32 = 1002 := by
  constructor
  · rfl
  · rfl

end Omni

namespace Omni

/-- C4: when the envelope verifies and the payload decodes, a `from` field
differing from the envelope-recovered identity makes request decoding fail
with `InvalidFromIdentity` (code 1001). -/
theorem c4_invalid_from (hash : List Nat → List Nat) (S : SigScheme)
    (env : CoseSign1) (to_ : Option Identity) (fid : Identity)
    (p : List Nat) (msg : RequestMessage)
    (hv : CoseSign1.verify hash S env = .ok fid)
    (hp : env.payload = some p)
    (hm : RequestMessage.from_bytes p = .ok msg)
    (hne : fid ≠ msg.from_.getD Identity.defaultId) :
    decode_request_from_cose_sign1 hash S env to_ =
      .error OmniError.invalid_from_identity ∧
    OmniError.invalid_from_identity.code.toU32 = 1001 := by
  refine ⟨?_, rfl⟩
  simp [decode_request_from_cose_sign1, hv, hp, hm, hne]

/-- C4 witness: a validly signed envelope (under the concrete scheme) whose
decoded message claims a different `from` identity. -/
theorem c4_witness :
    decode_request_from_cose_sign1 toyHash toyScheme
      ⟨⟨some .eddsaEd25519, some [1, 0, 9], some "application/cbor",
          some [⟨some [0, 9], some [1, 0, 9]⟩]⟩,
        some (RequestMessage.to_bytes
          ⟨some (.publicKey [7]), .anonymous, "m"⟩),
        some [0, 9]⟩ none =
      .error OmniError.invalid_from_identity ∧
    OmniError.invalid_from_identity.code.toU32 = 1001 :=
  c4_invalid_from toyHash toyScheme _ none (.publicKey [0, 9])
    (RequestMessage.to_bytes ⟨some (.publicKey [7]), .anonymous, "m"⟩)
    ⟨some (.publicKey [7]), .anonymous, "m"⟩
    (by decide) rfl (by decide) (by decide)

/-- The two-entry fields map `unknown_destination` builds: the B-tree map
orders `"this"` before `"to"`. -/
theorem unknown_destination_eq (a b : String) :
    OmniError.unknown_destination a b =
      ⟨.unknownDestination, none, [("this", b), ("to", a)]⟩ := by
  have hlt : strLt "this" "to" = true := by decide
  simp [OmniError.unknown_destination, fieldsFromList, fieldsInsert, hlt]

/-- C5: when the envelope verifies, the payload decodes and the `from`
check passes, supplying an expected recipient different from the message's
`to` fails with `UnknownDestination` (code 1003) whose fields hold the
actual recipient under `"to"` and the expected one under `"this"`; with no
expected recipient the `to` field is not checked and decoding succeeds. -/
theorem c5_unknown_destination (hash : List Nat → List Nat) (S : SigScheme)
    (env : CoseSign1) (fid : Identity) (p : List Nat) (msg : RequestMessage)
    (hv : CoseSign1.verify hash S env = .ok fid)
    (hp : env.payload = some p)
    (hm : RequestMessage.from_bytes p = .ok msg)
    (hfrom : fid = msg.from_.getD Identity.defaultId) :
    (∀ tid : Identity, tid ≠ msg.to_ →
      decode_request_from_cose_sign1 hash S env (some tid) =
        .error (OmniError.unknown_destination msg.to_.toText tid.toText) ∧
      fieldsGet (OmniError.unknown_destination msg.to_.toText tid.toText).fields
        "to" = some msg.to_.toText ∧
      fieldsGet (OmniError.unknown_destination msg.to_.toText tid.toText).fields
        "this" = some tid.toText ∧
      (OmniError.unknown_destination msg.to_.toText tid.toText).code.toU32 =
        1003) ∧
    decode_request_from_cose_sign1 hash S env none = .ok msg := by
  have hth : ("this" : String) ≠ "to" := by decide
  constructor
  · intro tid hne
    refine ⟨?_, ?_, ?_, ?_⟩
    · simp [decode_request_from_cose_sign1, hv, hp, hm, hfrom, hne]
    · rw [unknown_destination_eq]
      simp [fieldsGet, List.find?, hth]
    · rw [unknown_destination_eq]
      simp [fieldsGet, List.find?]
    · rw [unknown_destination_eq]
      rfl
  · simp [decode_request_from_cose_sign1, hv, hp, hm, hfrom]

/-- C5 witness: an anonymous envelope whose message is addressed to a
public-key identity, checked against a different expected recipient, and
the same envelope accepted when no recipient is expected. -/
theorem c5_witness :
    (decode_request_from_cose_sign1 toyHash toyScheme
        ⟨⟨none, some [0], none, none⟩,
          some (RequestMessage.to_bytes ⟨none, .publicKey [5], "m"⟩), none⟩
        (some .anonymous) =
      .error (OmniError.unknown_destination
        (Identity.publicKey [5]).toText Identity.anonymous.toText) ∧
      fieldsGet (OmniError.unknown_destination
        (Identity.publicKey [5]).toText Identity.anonymous.toText).fields
        "to" = some (Identity.publicKey [5]).toText ∧
      fieldsGet (OmniError.unknown_destination
        (Identity.publicKey [5]).toText Identity.anonymous.toText).fields
        "this" = some Identity.anonymous.toText ∧
      (OmniError.unknown_destination
        (Identity.publicKey [5]).toText Identity.anonymous.toText).code.toU32 =
        1003) ∧
    decode_request_from_cose_sign1 toyHash toyScheme
      ⟨⟨none, some [0], none, none⟩,
        some (RequestMessage.to_bytes ⟨none, .publicKey [5], "m"⟩), none⟩
      none = .ok ⟨none, .publicKey [5], "m"⟩ :=
  ⟨(c5_unknown_destination toyHash toyScheme _ .anonymous
      (RequestMessage.to_bytes ⟨none, .publicKey [5], "m"⟩)
      ⟨none, .publicKey [5], "m"⟩
      (by decide) rfl (by decide) (by decide)).1 .anonymous (by decide),
   (c5_unknown_destination toyHash toyScheme _ .anonymous
      (RequestMessage.to_bytes ⟨none, .publicKey [5], "m"⟩)
      ⟨none, .publicKey [5], "m"⟩
      (by decide) rfl (by decide) (by decide)).2⟩

/-- C9: for an envelope whose sender verifies, a missing payload fails with
`EmptyEnvelope` (code 1004), an undecodable payload fails with
`InternalServerError` (code 2000), `InternalServerError` arises only from
an undecodable present payload, and the two errors are distinct. -/
theorem c9_empty_vs_internal (hash : List Nat → List Nat) (S : SigScheme)
    (env : CoseSign1) (to_ : Option Identity) (fid : Identity)
    (hv : CoseSign1.verify hash S env = .ok fid) :
    (env.payload = none →
      decode_request_from_cose_sign1 hash S env to_ =
        .error OmniError.empty_envelope) ∧
    (∀ p e, env.payload = some p →
      RequestMessage.from_bytes p = .error e →
      decode_request_from_cose_sign1 hash S env to_ =
        .error OmniError.internal_server_error) ∧
    (decode_request_from_cose_sign1 hash S env to_ =
        .error OmniError.internal_server_error →
      ∃ p, env.payload = some p ∧
        ∃ e, RequestMessage.from_bytes p = .error e) ∧
    OmniError.empty_envelope.code.toU32 = 1004 ∧
    OmniError.internal_server_error.code.toU32 = 2000 ∧
    OmniError.empty_envelope ≠ OmniError.internal_server_error := by
  refine ⟨?_, ?_, ?_, rfl, rfl, by decide⟩
  · intro hp
    simp [decode_request_from_cose_sign1, hv, hp]
  · intro p e hp he
    simp [decode_request_from_cose_sign1, hv, hp, he]
  · intro hdec
    rcases henv : env.payload with _ | p
    · rw [decode_request_from_cose_sign1, hv, henv] at hdec
      exact absurd (Except.error.inj hdec) (by decide)
    · refine ⟨p, rfl, ?_⟩
      cases hb : RequestMessage.from_bytes p with
      | error e => exact ⟨e, rfl⟩
      | ok m =>
        exfalso
        rcases to_ with _ | tid <;>
          simp only [decode_request_from_cose_sign1, hv, henv, hb] at hdec <;>
          (try split_ifs at hdec) <;>
          simp_all [unknown_destination_eq, OmniError.invalid_from_identity,
            OmniError.internal_server_error]

/-- C9 witness: a payload-less anonymous envelope and one with an
undecodable payload. -/
theorem c9_witness :
    decode_request_from_cose_sign1 toyHash toyScheme
      ⟨⟨none, some [0], none, none⟩, none, none⟩ none =
      .error OmniError.empty_envelope ∧
    decode_request_from_cose_sign1 toyHash toyScheme
      ⟨⟨none, some [0], none, none⟩, some [9, 9, 9], none⟩ none =
      .error OmniError.internal_server_error :=
  ⟨(c9_empty_vs_internal toyHash toyScheme
      ⟨⟨none, some [0], none, none⟩, none, none⟩ none .anonymous rfl).1 rfl,
   (c9_empty_vs_internal toyHash toyScheme
      ⟨⟨none, some [0], none, none⟩, some [9, 9, 9], none⟩ none .anonymous
      rfl).2.1 [9, 9, 9] "bad option tag" rfl (by decide)⟩

end Omni

namespace Omni

/-- C7: the template renderer is a total function and, on the spec's test
vectors (double braces as literals taking priority over named
substitution, absent fields as the empty string, everything else copied),
produces exactly the expected strings. -/
theorem c7_template_rendering :
    OmniError.display ⟨.unknown, some "Hello \x7b0\x7d and \x7b2\x7d.", [("0", "ZERO"), ("1", "ONE"), ("2", "TWO")]⟩ = "Hello ZERO and TWO." ∧
    OmniError.display ⟨.unknown, some "\x7b2\x7d", [("0", "ZERO"), ("1", "ONE"), ("2", "TWO")]⟩ = "TWO" ∧
    OmniError.display ⟨.unknown, some "@\x7ba\x7d\x7bb\x7d\x7bc\x7d.", [("0", "ZERO"), ("1", "ONE"), ("2", "TWO")]⟩ = "@." ∧
    OmniError.display ⟨.unknown, some "/\x7b\x7b\x7d\x7d\x7b\x7b\x7b0\x7d\x7d\x7d\x7b\x7b\x7ba\x7d\x7d\x7d\x7bb\x7d\x7d\x7d\x7b\x7b\x7b2\x7d.", [("0", "ZERO"), ("1", "ONE"), ("2", "TWO")]⟩ = "/\x7b\x7d\x7bZERO\x7d\x7b\x7d\x7d\x7bTWO." :=
  ⟨by decide, by decide, by decide, by decide⟩

/-- C6 counterexample: an error with a message but a code below 10000
(here `Unknown`, code 0) encodes with the message present — refuting
"the message string is present only when code ≥ 10000" — and fails to
round-trip: decoding drops the message. -/
theorem c6_counterexample :
    OmniError.decode (OmniError.encode ⟨.unknown, some "x", []⟩) ≠
      .ok (⟨.unknown, some "x", []⟩, []) ∧
    (∃ s, CborItem.text s ∈ OmniError.encode ⟨.unknown, some "x", []⟩) ∧
    OmniErrorCode.toU32 .unknown < 10000 :=
  ⟨by decide, ⟨"x", by decide⟩, by decide⟩

/-- C6 (amended): for every error whose message is present exactly when
its code is application-specific (≥ 10000) and whose numeric code maps
back to the same code, encode-then-decode reproduces the error exactly and
consumes everything; in the binary form the message item is present
exactly when the message is, and the fields map exactly when the fields
are non-empty — with presence inferred structurally. -/
theorem c6_roundtrip_structural (e : OmniError)
    (hm : e.message.isSome = e.code.is_application_specific)
    (hc : OmniErrorCode.fromU32 e.code.toU32 = e.code) :
    OmniError.decode (OmniError.encode e) = .ok (e, []) ∧
    ((∃ s, CborItem.text s ∈ OmniError.encode e) ↔
      e.message.isSome = true) ∧
    ((∃ m, CborItem.map m ∈ OmniError.encode e) ↔ e.fields ≠ []) := by
  obtain ⟨code, msg, fields⟩ := e
  cases msg with
  | none =>
    have happ : code.is_application_specific = false := by
      simpa using hm.symm
    rcases fields with _ | ⟨f0, fs⟩ <;>
      refine ⟨?_, ?_, ?_⟩ <;>
        simp [OmniError.encode, OmniError.decode, hc, happ]
  | some s =>
    have happ : code.is_application_specific = true := by
      simpa using hm.symm
    rcases fields with _ | ⟨f0, fs⟩ <;>
      refine ⟨?_, ?_, ?_⟩ <;>
        simp [OmniError.encode, OmniError.decode, hc, happ]

/-- C6 witness: an application-specific error with message and fields
round-trips, with both items present in its binary form. -/
theorem c6_witness :
    OmniError.decode (OmniError.encode
        ⟨.applicationSpecific 10001, some "m", [("a", "b")]⟩) =
      .ok (⟨.applicationSpecific 10001, some "m", [("a", "b")]⟩, []) ∧
    ((∃ s, CborItem.text s ∈ OmniError.encode
        ⟨.applicationSpecific 10001, some "m", [("a", "b")]⟩) ↔
      (OmniError.mk (.applicationSpecific 10001) (some "m")
        [("a", "b")]).message.isSome = true) ∧
    ((∃ m, CborItem.map m ∈ OmniError.encode
        ⟨.applicationSpecific 10001, some "m", [("a", "b")]⟩) ↔
      (OmniError.mk (.applicationSpecific 10001) (some "m")
        [("a", "b")]).fields ≠ []) :=
  c6_roundtrip_structural ⟨.applicationSpecific 10001, some "m", [("a", "b")]⟩
    (by decide) (by decide)

end Omni
